import Mathlib

/-!
Verification development for the cr0ssp0st0r mirror bot (src/index.js).

The source is a single-file pipeline: an event filter (`includeEvent`), a
text reformatter (`reformatText`), a media transloader
(`transloadMastodonMediaToBsky` / `mastodonMediaToBskyEmbeds` /
`mastodonCardToBskyEmbed`), a post assembler (`mastodonStatusToBskyPost`),
a persistent key-value ledger (node-persist `getItem` / `setItem`) and a
top-level ingestion loop.

Texts are embedded as `List Char` (one element per Unicode scalar value).
External collaborators (the HTML stripper, the grapheme counter, the word
segmenter, the destination API, the storage engine's success/failure and
the network) are modelled explicitly; each such definition carries a doc
comment saying what it models.
-/

/-! ## Text pipeline -/

/-- Modelled from the spec: the external grapheme counter
(countGraphemes, backed by a grapheme segmenter) measures length in
user-perceived grapheme clusters.  The model counts one cluster per
Unicode scalar value, which is exact on text without combining
sequences (all concrete inputs below are of that form). -/
def countGraphemes (l : List Char) : Nat := l.length

/-- UTF-16 code-unit size of a scalar, as used by JavaScript's
String.length. -/
def utf16Size (c : Char) : Nat := if c.toNat < 65536 then 1 else 2

/-- JavaScript String.length: the number of UTF-16 code units. -/
def utf16Len (l : List Char) : Nat := (l.map utf16Size).sum

/-- Whitespace class of the JavaScript regular-expression escape in the
line-break pattern of reformatText (src/index.js line 57). -/
def isRegexSpace (c : Char) : Bool :=
  c == ' ' || c == '\t' || c == '\n' || c == '\r' ||
  c.toNat == 0xb || c.toNat == 0xc || c.toNat == 0xa0 ||
  c.toNat == 0x1680 || (0x2000 ≤ c.toNat && c.toNat ≤ 0x200a) ||
  c.toNat == 0x2028 || c.toNat == 0x2029 || c.toNat == 0x202f ||
  c.toNat == 0x205f || c.toNat == 0x3000 || c.toNat == 0xfeff

/-- Global replacement of the line-break-element pattern (a "br"
element with an optional whitespace before the slash) by a newline,
as in src/index.js line 57.  The scanner is leftmost and
non-overlapping, like replaceAll.  In the second alternative's
non-matching case no later match can begin inside the six scanned
characters (a match needs a "<" followed by "br"), so they are
emitted wholesale. -/
def normBr : List Char → List Char
  | '<' :: 'b' :: 'r' :: '/' :: '>' :: rest => '\n' :: normBr rest
  | '<' :: 'b' :: 'r' :: c :: '/' :: '>' :: rest =>
      if isRegexSpace c then '\n' :: normBr rest
      else '<' :: 'b' :: 'r' :: c :: '/' :: '>' :: normBr rest
  | c :: rest => c :: normBr rest
  | [] => []

/-- Global replacement of a paragraph boundary by a double newline, as
in src/index.js line 57 (replaceAll of a plain string pattern). -/
def replacePP : List Char → List Char
  | '<' :: '/' :: 'p' :: '>' :: '<' :: 'p' :: '>' :: rest =>
      '\n' :: '\n' :: replacePP rest
  | c :: rest => c :: replacePP rest
  | [] => []

/-- Tag-stripping automaton: outside a tag, a "<" enters tag state;
inside a tag everything up to the next ">" is dropped. -/
def stripTags : Bool → List Char → List Char
  | _, [] => []
  | true, c :: rest => if c = '>' then stripTags false rest else stripTags true rest
  | false, c :: rest => if c = '<' then stripTags true rest else c :: stripTags false rest

/-- Modelled from the spec: the external HTML stripper (string-strip-html)
"strips all remaining markup, yielding plain text".  Modelled as removal
of every tag span. -/
def stripHtml (l : List Char) : List Char := stripTags false l

/-- The plain text reformatText computes before measuring: inject
newlines for line breaks and paragraph boundaries, then strip all
remaining tags (src/index.js lines 56-58). -/
def toPlainText (content : List Char) : List Char :=
  stripHtml (replacePP (normBr content))

/-- One segment of the word segmentation: its text and whether it is
word-like. -/
structure Seg where
  segment : List Char
  isWordLike : Bool
deriving DecidableEq

/-- Word-like characters of the segmentation model: letters and digits. -/
def isWordChar (c : Char) : Bool := c.isAlphanum

/-- Accumulating scanner for the word segmentation: `run` is the
pending word-like run. -/
def segGo (run : List Char) : List Char → List Seg
  | [] => if run = [] then [] else [⟨run, true⟩]
  | c :: rest =>
    if isWordChar c then segGo (run ++ [c]) rest
    else if run = [] then ⟨[c], false⟩ :: segGo [] rest
    else ⟨run, true⟩ :: ⟨[c], false⟩ :: segGo [] rest

/-- Modelled from the spec: the external locale-aware word segmenter
(Intl.Segmenter with word granularity) splits the text into word-like
and non-word-like segments.  The model makes maximal alphanumeric runs
word-like segments and every other scalar its own non-word-like
segment. -/
def segmentText (l : List Char) : List Seg := segGo [] l

/-- The truncation loop of reformatText (src/index.js lines 62-73):
greedily absorb whole segments, and at the first word-like segment at
which the accumulated snippet would meet or exceed the budget, return
the snippet followed by an ellipsis, a space and the source URL.
Returns none when the loop falls through (the source then returns the
unshortened text). -/
def truncLoop (maxG : Nat) (url : List Char) : List Char → List Char → List Seg → Option (List Char)
  | _, _, [] => none
  | snippet, add, sg :: rest =>
    if sg.isWordLike then
      if maxG ≤ countGraphemes (snippet ++ (add ++ sg.segment)) then
        some (snippet ++ '…' :: ' ' :: url)
      else truncLoop maxG url (snippet ++ (add ++ sg.segment)) [] rest
    else truncLoop maxG url snippet (add ++ sg.segment) rest

/-- Concatenation of the texts of a list of segments. -/
def segConcat (segs : List Seg) : List Char :=
  segs.foldr (fun sg acc => sg.segment ++ acc) []

/-! ## Source data model -/

/-- Account of a status (only the id is read by the filter). -/
structure Account where
  id : String
deriving DecidableEq

/-- Natural width and height of a media original. -/
structure Dimensions where
  width : Nat
  height : Nat
deriving DecidableEq

/-- Media metadata as read by the embed builder (meta.original). -/
structure MediaMeta where
  original : Dimensions
deriving DecidableEq

/-- A media attachment of a source status. -/
structure MediaAttachment where
  type : String
  url : String
  description : String
  meta : MediaMeta
deriving DecidableEq

/-- A link-preview card of a source status. -/
structure Card where
  url : String
  title : String
  description : String
  image : Option String
deriving DecidableEq

/-- A source (Mastodon) status: the event payload.  Texts are lists of
scalars; absent nullable fields are none. -/
structure MastodonStatus where
  id : String
  content : List Char
  url : List Char
  language : String
  createdAt : String
  visibility : String
  muted : Bool
  account : Account
  mentions : List String
  inReplyToAccountId : Option String
  inReplyToId : Option String
  mediaAttachments : List MediaAttachment
  card : Option Card
deriving DecidableEq

/-- A streaming event envelope: event kind plus status payload. -/
structure MastodonEvent where
  event : String
  payload : MastodonStatus
deriving DecidableEq

/-- reformatText (src/index.js lines 54-76): strip the content to plain
text; if it measures over 300 graphemes, run the truncation loop with
a budget of 300 minus the URL's JavaScript length minus 2, and fall
back to the unshortened text when the loop never triggers. -/
def reformatText (s : MastodonStatus) : List Char :=
  if 300 < countGraphemes (toPlainText s.content) then
    match truncLoop (300 - utf16Len s.url - 2) s.url [] [] (segmentText (toPlainText s.content)) with
    | some snip => snip
    | none => toPlainText s.content
  else toPlainText s.content

/-! ## Event filter and stream-level admission -/

/-- includeEvent (src/index.js lines 27-45): the pure event filter.
Rejects non-update events, non-public or muted posts, posts by other
accounts, posts with mentions, and replies to other accounts. -/
def includeEvent (accountId : String) (e : MastodonEvent) : Bool :=
  if e.event ≠ "update" ∨ e.payload.visibility ≠ "public" ∨ e.payload.muted = true ∨
     e.payload.account.id ≠ accountId ∨ e.payload.mentions.length > 0 ∨
     (e.payload.inReplyToAccountId ≠ none ∧ e.payload.inReplyToAccountId ≠ some accountId)
  then false
  else true

/-- Admission of the stream stage getMastodonStatusStream
(src/index.js lines 87-95): an event's payload is yielded when
includeEvent admits it and no media attachment has a non-image kind
(the latter check lives in the stream loop, after the filter). -/
def streamAdmits (accountId : String) (e : MastodonEvent) : Bool :=
  includeEvent accountId e &&
  !(e.payload.mediaAttachments.any (fun a => a.type != "image"))

/-! ## Ledger, destination records, external world -/

/-- Destination post identity (the value returned by the posting API),
treated as opaque. -/
abbrev Ref := String

/-- A destination blob reference returned by the upload API, treated
as opaque. -/
abbrev Blob := String

/-- The bsky part of a success ledger value: the posted identity and
the root identity of the thread, null for a thread root
(src/index.js lines 202-207). -/
structure BskyLedgerVal where
  post : Ref
  root : Option Ref
deriving DecidableEq

/-- A ledger entry: bsky is null exactly when the cross-post attempt
failed (src/index.js line 213). -/
structure Entry where
  bsky : Option BskyLedgerVal
deriving DecidableEq

/-- The persistent ledger, newest write first; getItem finds the most
recent value for a key. -/
abbrev Ledger := List (String × Entry)

/-- storage.getItem: most recent value written under the key, none
when the key was never written. -/
def getItem (led : Ledger) (k : String) : Option Entry :=
  (led.find? (fun e => e.1 == k)).map (fun e => e.2)

/-- storage.setItem: write a value under a key (overwriting any older
value on read). -/
def setItem (led : Ledger) (k : String) (v : Entry) : Ledger :=
  (k, v) :: led

/-- Outcome of transloading one URL: the downloaded-and-uploaded blob,
or a failed download (response not ok), or an unacknowledged upload. -/
inductive FetchOutcome where
  | ok (blob : Blob)
  | downloadFail
  | uploadFail
deriving DecidableEq

/-- A transload error: the offending URL together with which stage
failed — the wrapper thrown at src/index.js line 116. -/
structure TError where
  url : String
  stage : FetchOutcome
deriving DecidableEq

/-- A reply reference of a destination post record. -/
structure ReplyRef where
  parent : Ref
  root : Ref
deriving DecidableEq

/-- One image of an image-set embed (src/index.js lines 128-135). -/
structure BskyImage where
  alt : String
  image : Blob
  aspectRatio : Dimensions
deriving DecidableEq

/-- An external-link embed (src/index.js lines 140-153).  The source
sets its blob field from a field named original of the uploaded blob
reference, which is absent on that shape, so the stored value is
modelled as none (the latent bug the spec notes). -/
structure ExternalEmbed where
  uri : String
  title : String
  description : String
  blob : Option Blob
deriving DecidableEq

/-- The two embed variants a destination post can carry. -/
inductive Embed where
  | images (imgs : List BskyImage)
  | external (ext : ExternalEmbed)
deriving DecidableEq

/-- A destination (bsky) post record as assembled by
mastodonStatusToBskyPost. -/
structure BskyPost where
  text : List Char
  facets : List String
  langs : List String
  createdAt : String
  reply : Option ReplyRef
  embed : Option Embed
deriving DecidableEq

/-- Modelled from the spec: the external collaborators of one run —
the network and blob store (media, per source URL), facet detection
over the final text, the destination posting API (none meaning the
submission was rejected), and whether a given ledger write succeeds. -/
structure World where
  media : String → FetchOutcome
  detectFacets : List Char → List String
  post : BskyPost → Option Ref
  writeOk : String → Entry → Bool

/-! ## Media transloader -/

/-- transloadMastodonMediaToBsky for a single source URL
(src/index.js lines 102-117): download then upload, any failure
wrapped with the offending URL. -/
def transloadOne (media : String → FetchOutcome) (url : String) : Except TError Blob :=
  match media url with
  | .ok b => .ok b
  | .downloadFail => .error ⟨url, .downloadFail⟩
  | .uploadFail => .error ⟨url, .uploadFail⟩

/-- transloadMastodonMediaToBsky (src/index.js lines 100-120): the
joined batch fails as soon as any item fails, and succeeds with one
blob per source otherwise. -/
def transloadMastodonMediaToBsky (media : String → FetchOutcome) : List String → Except TError (List Blob)
  | [] => .ok []
  | url :: rest =>
    match transloadOne media url with
    | .error e => .error e
    | .ok b =>
      match transloadMastodonMediaToBsky media rest with
      | .error e => .error e
      | .ok bs => .ok (b :: bs)

/-- mastodonMediaToBskyEmbeds (src/index.js lines 124-137): transload
every attachment and zip the blobs back with alt text and natural
aspect ratio. -/
def mastodonMediaToBskyEmbeds (media : String → FetchOutcome) (s : MastodonStatus) : Except TError Embed :=
  match transloadMastodonMediaToBsky media (s.mediaAttachments.map MediaAttachment.url) with
  | .error e => .error e
  | .ok blobs =>
    .ok (.images (s.mediaAttachments.zipWith
      (fun a b => ⟨a.description, b, a.meta.original⟩) blobs))

/-- mastodonCardToBskyEmbed (src/index.js lines 139-154): build an
external-link embed, transloading the card's thumbnail when present
(a falsy — absent or empty — image URL skips the transload). -/
def mastodonCardToBskyEmbed (media : String → FetchOutcome) (c : Card) : Except TError Embed :=
  match c.image with
  | none => .ok (.external ⟨c.url, c.title, c.description, none⟩)
  | some img =>
    if img = "" then .ok (.external ⟨c.url, c.title, c.description, none⟩)
    else
      match transloadMastodonMediaToBsky media [img] with
      | .error e => .error e
      | .ok _ => .ok (.external ⟨c.url, c.title, c.description, none⟩)

/-! ## Post assembler -/

/-- Failure modes of one assembly (src/index.js lines 156-192): the
TypeError thrown by reading the bsky field of an undefined parent
lookup result, a transload failure, or schema validation failure. -/
inductive AsmError where
  | typeError
  | transload (e : TError)
  | validation
deriving DecidableEq

/-- Reply resolution of the assembler (src/index.js lines 166-174).
A truthy inReplyToId triggers a ledger lookup; a missing entry makes
the field access on undefined throw; a failure entry (bsky null)
yields no reply; a success entry yields parent and root, the root
falling back to the parent's own identity. -/
def replyFor (led : Ledger) (s : MastodonStatus) : Except AsmError (Option ReplyRef) :=
  match s.inReplyToId with
  | none => .ok none
  | some pid =>
    if pid = "" then .ok none
    else
      match getItem led pid with
      | none => .error .typeError
      | some parent =>
        match parent.bsky with
        | none => .ok none
        | some b => .ok (some ⟨b.post, b.root.getD b.post⟩)

/-- Embed resolution of the assembler (src/index.js lines 176-180):
image attachments win over a link-preview card; neither yields no
embed. -/
def embedFor (media : String → FetchOutcome) (s : MastodonStatus) : Except AsmError (Option Embed) :=
  if s.mediaAttachments.length > 0 then
    match mastodonMediaToBskyEmbeds media s with
    | .ok em => .ok (some em)
    | .error e => .error (.transload e)
  else
    match s.card with
    | some c =>
      match mastodonCardToBskyEmbed media c with
      | .ok em => .ok (some em)
      | .error e => .error (.transload e)
    | none => .ok none

/-- Modelled from the spec: the destination schema validation
(validateRecord).  The spec fixes the destination's hard constraint
at 300 graphemes of text. -/
def validateRecord (p : BskyPost) : Bool :=
  decide (countGraphemes p.text ≤ 300)

/-- The record built at src/index.js lines 159-165: reformatted text,
facets detected over the final text, language tag, timestamp, plus
the resolved reply and embed. -/
def mkPost (w : World) (s : MastodonStatus) (reply : Option ReplyRef) (embed : Option Embed) : BskyPost :=
  { text := reformatText s
    facets := w.detectFacets (reformatText s)
    langs := [s.language]
    createdAt := s.createdAt
    reply := reply
    embed := embed }

/-- mastodonStatusToBskyPost (src/index.js lines 156-192): resolve
the reply (before embeds, matching the source's statement order),
resolve the embed, build the record, and validate it. -/
def mastodonStatusToBskyPost (w : World) (led : Ledger) (s : MastodonStatus) : Except AsmError BskyPost :=
  match replyFor led s with
  | .error e => .error e
  | .ok reply =>
    match embedFor w.media s with
    | .error e => .error e
    | .ok embed =>
      if validateRecord (mkPost w s reply embed) then .ok (mkPost w s reply embed)
      else .error .validation

/-! ## Ingestion loop -/

/-- A per-item pipeline failure: assembly failed, or the destination
post API rejected the submission. -/
inductive PipelineError where
  | asm (e : AsmError)
  | submission
deriving DecidableEq

/-- Assembly plus submission, the unit attempted inside the outer try
of the loop body (src/index.js lines 199-200). -/
def assembleAndPost (w : World) (led : Ledger) (s : MastodonStatus) : Except PipelineError (BskyPost × Ref) :=
  match mastodonStatusToBskyPost w led s with
  | .error e => .error (.asm e)
  | .ok p =>
    match w.post p with
    | some r => .ok (p, r)
    | none => .error .submission

/-- Effect of processing one status: the ledger afterwards, the
writes performed (chronological), the identity of a post published at
the destination (which is never retracted), and whether an uncaught
exception escaped the loop body. -/
structure StepResult where
  ledger : Ledger
  writes : List (String × Entry)
  posted : Option Ref
  crashed : Bool
deriving DecidableEq

/-- One iteration of the ingestion loop (src/index.js lines 196-216).
On success the success entry is written (its failure only logged); on
failure the failure entry is written inside the catch block, and if
that write itself fails the exception is uncaught and the loop
crashes. -/
def step (w : World) (led : Ledger) (s : MastodonStatus) : StepResult :=
  match assembleAndPost w led s with
  | .ok (bskyPost, posted) =>
    let entry : Entry := ⟨some ⟨posted, bskyPost.reply.map ReplyRef.root⟩⟩
    if w.writeOk s.id entry then
      ⟨setItem led s.id entry, [(s.id, entry)], some posted, false⟩
    else
      ⟨led, [], some posted, false⟩
  | .error _ =>
    let entry : Entry := ⟨none⟩
    if w.writeOk s.id entry then
      ⟨setItem led s.id entry, [(s.id, entry)], none, false⟩
    else
      ⟨led, [], none, true⟩

/-- Accumulated state of a run: the ledger, the chronological write
log of the run, the identities published so far, and whether the loop
crashed. -/
structure RunState where
  ledger : Ledger
  writes : List (String × Entry)
  posts : List Ref
  crashed : Bool
deriving DecidableEq

/-- Fold one step's effects into the run state. -/
def applyStep (st : RunState) (r : StepResult) : RunState :=
  { ledger := r.ledger
    writes := st.writes ++ r.writes
    posts := st.posts ++ r.posted.toList
    crashed := r.crashed }

/-- The ingestion loop over a finite event sequence: strictly
sequential, one status to completion at a time; a crashed state
processes nothing further. -/
def runLoop (w : World) (st : RunState) : List MastodonStatus → RunState
  | [] => st
  | s :: rest =>
    if st.crashed then st
    else runLoop w (applyStep st (step w st.ledger s)) rest

/-! ## Text pipeline lemmas -/

theorem segConcat_nil : segConcat [] = [] := rfl

theorem segConcat_cons (sg : Seg) (segs : List Seg) :
    segConcat (sg :: segs) = sg.segment ++ segConcat segs := rfl

theorem stripTags_not_mem : ∀ (l : List Char) (b : Bool), '<' ∉ stripTags b l := by
  intro l
  induction l with
  | nil => intro b; cases b <;> simp [stripTags]
  | cons c rest ih =>
    intro b
    cases b with
    | true =>
      simp only [stripTags]
      split
      · exact ih false
      · exact ih true
    | false =>
      simp only [stripTags]
      split
      · exact ih true
      · intro hmem
        rcases List.mem_cons.mp hmem with h1 | h2
        · next hne => exact hne h1.symm
        · exact ih false h2

theorem stripTags_id (l : List Char) (h : '<' ∉ l) : stripTags false l = l := by
  induction l with
  | nil => rfl
  | cons c rest ih =>
    have hc : ¬ c = '<' := fun hc => h (hc ▸ List.mem_cons_self c rest)
    simp only [stripTags, if_neg hc]
    rw [ih (fun hm => h (List.mem_cons_of_mem c hm))]

section

attribute [local irreducible] isRegexSpace

theorem normBr_cons_ne (c : Char) (l : List Char) (h : c ≠ '<') :
    normBr (c :: l) = c :: normBr l := by
  rw [normBr.eq_def]
  split
  · next heq => injection heq with h1 _; exact absurd h1 h
  · next c' rest heq => injection heq with h1 _; exact absurd h1 h
  · next c' rest heq => injection heq with h1 h2; rw [h1, h2]
  · next heq => exact absurd heq (by simp)

end

theorem normBr_id (l : List Char) (h : '<' ∉ l) : normBr l = l := by
  induction l with
  | nil => rfl
  | cons c rest ih =>
    rw [normBr_cons_ne c rest (fun hc => h (hc ▸ List.mem_cons_self c rest))]
    rw [ih (fun hm => h (List.mem_cons_of_mem c hm))]

theorem replacePP_cons_ne (c : Char) (l : List Char) (h : c ≠ '<') :
    replacePP (c :: l) = c :: replacePP l := by
  rw [replacePP.eq_def]
  split
  · next heq => injection heq with h1 _; exact absurd h1 h
  · next c' rest heq => injection heq with h1 h2; rw [h1, h2]
  · next heq => exact absurd heq (by simp)

theorem replacePP_id (l : List Char) (h : '<' ∉ l) : replacePP l = l := by
  induction l with
  | nil => rfl
  | cons c rest ih =>
    rw [replacePP_cons_ne c rest (fun hc => h (hc ▸ List.mem_cons_self c rest))]
    rw [ih (fun hm => h (List.mem_cons_of_mem c hm))]

theorem toPlainText_not_mem (content : List Char) : '<' ∉ toPlainText content :=
  stripTags_not_mem _ false

theorem toPlainText_fixed (content : List Char) :
    toPlainText (toPlainText content) = toPlainText content := by
  have h := toPlainText_not_mem content
  show stripHtml (replacePP (normBr (toPlainText content))) = toPlainText content
  rw [normBr_id _ h, replacePP_id _ h]
  exact stripTags_id _ h

theorem reformat_of_le (s : MastodonStatus)
    (h : countGraphemes (toPlainText s.content) ≤ 300) :
    reformatText s = toPlainText s.content := by
  unfold reformatText
  rw [if_neg (by omega)]

theorem length_le_utf16Len (l : List Char) : l.length ≤ utf16Len l := by
  induction l with
  | nil => simp [utf16Len]
  | cons c rest ih =>
    have h1 : 1 ≤ utf16Size c := by unfold utf16Size; split <;> omega
    unfold utf16Len at ih ⊢
    simp only [List.map_cons, List.sum_cons, List.length_cons]
    omega

theorem truncLoop_spec (maxG : Nat) (url : List Char) :
    ∀ (segs : List Seg) (snippet add r : List Char),
      truncLoop maxG url snippet add segs = some r →
      ∃ s2, r = s2 ++ '…' :: ' ' :: url ∧
        (s2 = snippet ∨ countGraphemes s2 < maxG) ∧
        (s2 = snippet ∨ ∃ n, s2 = snippet ++ (add ++ segConcat (segs.take n))) := by
  intro segs
  induction segs with
  | nil => intro snippet add r h; exact absurd h (by simp [truncLoop])
  | cons sg rest ih =>
    intro snippet add r h
    simp only [truncLoop] at h
    by_cases hw : sg.isWordLike = true
    · rw [if_pos hw] at h
      by_cases hge : maxG ≤ countGraphemes (snippet ++ (add ++ sg.segment))
      · rw [if_pos hge] at h
        injection h with h'
        exact ⟨snippet, h'.symm, Or.inl rfl, Or.inl rfl⟩
      · rw [if_neg hge] at h
        obtain ⟨s2, hr, hlen, hstr⟩ := ih _ _ _ h
        refine ⟨s2, hr, Or.inr ?_, Or.inr ?_⟩
        · rcases hlen with h1 | h1
          · rw [h1]; omega
          · exact h1
        · rcases hstr with h1 | h1
          · refine ⟨1, ?_⟩
            rw [h1]
            simp [segConcat_cons, segConcat_nil, List.append_assoc]
          · obtain ⟨n, hn⟩ := h1
            refine ⟨n + 1, ?_⟩
            rw [hn]
            simp [List.take_succ_cons, segConcat_cons, List.append_assoc]
    · rw [if_neg hw] at h
      obtain ⟨s2, hr, hlen, hstr⟩ := ih _ _ _ h
      refine ⟨s2, hr, hlen, ?_⟩
      rcases hstr with h1 | h1
      · exact Or.inl h1
      · obtain ⟨n, hn⟩ := h1
        refine Or.inr ⟨n + 1, ?_⟩
        rw [hn]
        simp [List.take_succ_cons, segConcat_cons, List.append_assoc]

theorem truncLoop_top (maxG : Nat) (url : List Char) (segs : List Seg) (r : List Char)
    (h : truncLoop maxG url [] [] segs = some r) :
    ∃ n, r = segConcat (segs.take n) ++ '…' :: ' ' :: url ∧
      (segConcat (segs.take n) = [] ∨ countGraphemes (segConcat (segs.take n)) < maxG) := by
  obtain ⟨s2, hr, hlen, hstr⟩ := truncLoop_spec maxG url segs [] [] r h
  rcases hstr with h1 | h1
  · refine ⟨0, ?_, Or.inl rfl⟩
    rw [hr, h1]
    simp [segConcat_nil]
  · obtain ⟨n, hn⟩ := h1
    have hn' : s2 = segConcat (segs.take n) := by simpa using hn
    refine ⟨n, by rw [hr, hn'], ?_⟩
    rcases hlen with h2 | h2
    · exact Or.inl (by rw [← hn', h2])
    · exact Or.inr (by rw [← hn']; exact h2)

/-! ## Assembler and ledger lemmas -/

theorem getItem_setItem_self (led : Ledger) (k : String) (v : Entry) :
    getItem (setItem led k v) k = some v := by
  simp [getItem, setItem, List.find?]

theorem mkPost_reply (w : World) (s : MastodonStatus) (reply : Option ReplyRef)
    (embed : Option Embed) : (mkPost w s reply embed).reply = reply := rfl

theorem asm_reply (w : World) (led : Ledger) (s : MastodonStatus) (p : BskyPost)
    (h : mastodonStatusToBskyPost w led s = .ok p) :
    replyFor led s = .ok p.reply := by
  unfold mastodonStatusToBskyPost at h
  cases hr : replyFor led s with
  | error e => rw [hr] at h; exact absurd h (by simp)
  | ok rr =>
    rw [hr] at h
    dsimp only at h
    cases he : embedFor w.media s with
    | error e => rw [he] at h; exact absurd h (by simp)
    | ok em =>
      rw [he] at h
      dsimp only at h
      by_cases hv : validateRecord (mkPost w s rr em)
      · rw [if_pos hv] at h
        injection h with h'
        rw [← h', mkPost_reply]
      · rw [if_neg hv] at h
        exact absurd h (by simp)

theorem assembleAndPost_ok (w : World) (led : Ledger) (s : MastodonStatus)
    (p : BskyPost) (r : Ref) (h : assembleAndPost w led s = .ok (p, r)) :
    mastodonStatusToBskyPost w led s = .ok p ∧ w.post p = some r := by
  unfold assembleAndPost at h
  cases ha : mastodonStatusToBskyPost w led s with
  | error e => rw [ha] at h; exact absurd h (by simp)
  | ok p' =>
    rw [ha] at h
    dsimp only at h
    cases hp : w.post p' with
    | none => rw [hp] at h; exact absurd h (by simp)
    | some r' =>
      rw [hp] at h
      dsimp only at h
      injection h with h'
      rw [Prod.mk.injEq] at h'
      obtain ⟨h1, h2⟩ := h'
      subst h1; subst h2
      exact ⟨rfl, hp⟩

theorem reply_of_nonreply (w : World) (led : Ledger) (s : MastodonStatus) (p : BskyPost)
    (hroot : s.inReplyToId = none)
    (h : mastodonStatusToBskyPost w led s = .ok p) : p.reply = none := by
  have hr := asm_reply w led s p h
  unfold replyFor at hr
  rw [hroot] at hr
  injection hr with h'
  exact h'.symm

theorem step_of_ok_write (w : World) (led : Ledger) (s : MastodonStatus)
    (p : BskyPost) (r : Ref)
    (hap : assembleAndPost w led s = .ok (p, r))
    (hw : w.writeOk s.id ⟨some ⟨r, p.reply.map ReplyRef.root⟩⟩ = true) :
    step w led s = ⟨setItem led s.id ⟨some ⟨r, p.reply.map ReplyRef.root⟩⟩,
      [(s.id, ⟨some ⟨r, p.reply.map ReplyRef.root⟩⟩)], some r, false⟩ := by
  unfold step
  rw [hap]
  simp only [hw, if_true]

theorem step_writes_key (w : World) (led : Ledger) (s : MastodonStatus) :
    ∀ kv ∈ (step w led s).writes, kv.1 = s.id := by
  intro kv hkv
  unfold step at hkv
  cases hps : assembleAndPost w led s with
  | ok pr =>
    obtain ⟨p, r⟩ := pr
    rw [hps] at hkv
    dsimp only at hkv
    split at hkv
    · rw [List.mem_singleton] at hkv; rw [hkv]
    · exact absurd hkv (List.not_mem_nil kv)
  | error e =>
    rw [hps] at hkv
    dsimp only at hkv
    split at hkv
    · rw [List.mem_singleton] at hkv; rw [hkv]
    · exact absurd hkv (List.not_mem_nil kv)

/-! ## Transloader lemmas -/

theorem transloadAll_ok (media : String → FetchOutcome) :
    ∀ (urls : List String) (bs : List Blob),
      transloadMastodonMediaToBsky media urls = .ok bs →
      bs.length = urls.length ∧ ∀ u ∈ urls, ∃ b, media u = .ok b := by
  intro urls
  induction urls with
  | nil =>
    intro bs h
    simp only [transloadMastodonMediaToBsky] at h
    injection h with h'
    subst h'
    exact ⟨rfl, by simp⟩
  | cons u rest ih =>
    intro bs h
    simp only [transloadMastodonMediaToBsky] at h
    cases h1 : transloadOne media u with
    | error e => rw [h1] at h; exact absurd h (by simp)
    | ok b =>
      rw [h1] at h
      dsimp only at h
      cases h2 : transloadMastodonMediaToBsky media rest with
      | error e => rw [h2] at h; exact absurd h (by simp)
      | ok bs' =>
        rw [h2] at h
        dsimp only at h
        injection h with h'
        subst h'
        obtain ⟨hlen, hall⟩ := ih bs' h2
        refine ⟨by simp [hlen], ?_⟩
        intro v hv
        rcases List.mem_cons.mp hv with h3 | h3
        · subst h3
          unfold transloadOne at h1
          cases hm : media v with
          | ok b' => exact ⟨b', rfl⟩
          | downloadFail => rw [hm] at h1; exact absurd h1 (by simp)
          | uploadFail => rw [hm] at h1; exact absurd h1 (by simp)
        · exact hall v h3

theorem transloadAll_err (media : String → FetchOutcome) :
    ∀ (urls : List String) (e : TError),
      transloadMastodonMediaToBsky media urls = .error e →
      e.url ∈ urls ∧ ∀ b, media e.url ≠ .ok b := by
  intro urls
  induction urls with
  | nil =>
    intro e h
    exact absurd h (by simp [transloadMastodonMediaToBsky])
  | cons u rest ih =>
    intro e h
    simp only [transloadMastodonMediaToBsky] at h
    cases h1 : transloadOne media u with
    | error e' =>
      rw [h1] at h
      dsimp only at h
      injection h with h'
      subst h'
      unfold transloadOne at h1
      cases hm : media u with
      | ok b => rw [hm] at h1; exact absurd h1 (by simp)
      | downloadFail =>
        rw [hm] at h1
        injection h1 with h1'
        subst h1'
        exact ⟨List.mem_cons_self u rest, fun b hb => by rw [hm] at hb; exact FetchOutcome.noConfusion hb⟩
      | uploadFail =>
        rw [hm] at h1
        injection h1 with h1'
        subst h1'
        exact ⟨List.mem_cons_self u rest, fun b hb => by rw [hm] at hb; exact FetchOutcome.noConfusion hb⟩
    | ok b =>
      rw [h1] at h
      dsimp only at h
      cases h2 : transloadMastodonMediaToBsky media rest with
      | error e' =>
        rw [h2] at h
        dsimp only at h
        injection h with h'
        subst h'
        obtain ⟨hm, hf⟩ := ih _ h2
        exact ⟨List.mem_cons_of_mem u hm, hf⟩
      | ok bs' => rw [h2] at h; exact absurd h (by simp)

/-! ## Loop lemmas -/

theorem runLoop_cons (w : World) (st : RunState) (s : MastodonStatus)
    (rest : List MastodonStatus) (h : st.crashed = false) :
    runLoop w st (s :: rest) = runLoop w (applyStep st (step w st.ledger s)) rest := by
  show (if st.crashed = true then st
    else runLoop w (applyStep st (step w st.ledger s)) rest) =
    runLoop w (applyStep st (step w st.ledger s)) rest
  rw [h]
  simp

theorem runLoop_writes_nodup_aux (w : World) :
    ∀ (ss : List MastodonStatus) (st : RunState),
      (st.writes.map Prod.fst).Nodup →
      (∀ k ∈ st.writes.map Prod.fst, k ∉ ss.map MastodonStatus.id) →
      (ss.map MastodonStatus.id).Nodup →
      ((runLoop w st ss).writes.map Prod.fst).Nodup := by
  intro ss
  induction ss with
  | nil => intro st h1 _ _; exact h1
  | cons s rest ih =>
    intro st h1 h2 h3
    by_cases hc : st.crashed = true
    · unfold runLoop
      rw [hc]
      simpa using h1
    · rw [runLoop_cons w st s rest (by simpa using hc)]
      have hkeys := step_writes_key w st.ledger s
      have hsid : s.id ∉ st.writes.map Prod.fst := by
        intro hmem
        exact h2 s.id hmem (by simp)
      have h3' : (rest.map MastodonStatus.id).Nodup := (List.nodup_cons.mp (by simpa using h3)).2
      have hsid_rest : s.id ∉ rest.map MastodonStatus.id :=
        (List.nodup_cons.mp (by simpa using h3)).1
      apply ih
      · show ((st.writes ++ (step w st.ledger s).writes).map Prod.fst).Nodup
        rw [List.map_append]
        apply List.Nodup.append h1
        · rcases hw : (step w st.ledger s).writes with _ | ⟨kv, tl⟩
          · simp
          · have hk := hkeys kv (by rw [hw]; exact List.mem_cons_self kv tl)
            have htl : ∀ kv' ∈ tl, kv'.1 = s.id := fun kv' hm =>
              hkeys kv' (by rw [hw]; exact List.mem_cons_of_mem kv hm)
            -- the step writes at most one pair, so the tail is empty
            have : tl = [] := by
              unfold step at hw
              cases hps : assembleAndPost w st.ledger s with
              | ok pr =>
                obtain ⟨p, r⟩ := pr
                rw [hps] at hw
                dsimp only at hw
                split at hw
                · injection hw with _ h'; exact h'.symm
                · exact absurd hw (by simp)
              | error e =>
                rw [hps] at hw
                dsimp only at hw
                split at hw
                · injection hw with _ h'; exact h'.symm
                · exact absurd hw (by simp)
            subst this
            simp
        · intro k hk1 hk2
          rcases List.mem_map.mp hk2 with ⟨kv, hkv, hkeq⟩
          have := hkeys kv hkv
          rw [this] at hkeq
          rw [← hkeq] at hk1
          exact hsid hk1
      · intro k hk
        have hw_app : (applyStep st (step w st.ledger s)).writes =
            st.writes ++ (step w st.ledger s).writes := rfl
        rw [hw_app, List.map_append, List.mem_append] at hk
        rcases hk with hk | hk
        · intro hmem
          exact h2 k hk (List.mem_cons_of_mem _ (by simpa using hmem))
        · rcases List.mem_map.mp hk with ⟨kv, hkv, hkeq⟩
          have := hkeys kv hkv
          rw [this] at hkeq
          rw [← hkeq]
          intro hmem
          exact hsid_rest (by simpa using hmem)
      · exact h3'

/-! ## Concrete fixtures -/

/-- List of scalars of a string literal. -/
def strL (s : String) : List Char := s.toList

/-- n concatenated copies of a scalar list. -/
def repList : Nat → List Char → List Char
  | 0, _ => []
  | n + 1, l => l ++ repList n l

/-- A plain public root status by account 42. -/
def baseStatus : MastodonStatus :=
  { id := "1"
    content := strL ("Hi")
    url := strL ("https://example/1")
    language := "en"
    createdAt := "t0"
    visibility := "public"
    muted := false
    account := ⟨"42"⟩
    mentions := []
    inReplyToAccountId := none
    inReplyToId := none
    mediaAttachments := []
    card := none }

/-- A benign world: all transloads succeed, no facets detected, the
destination returns identity r0, all ledger writes succeed. -/
def w0 : World :=
  { media := fun _ => .ok ("b")
    detectFacets := fun _ => []
    post := fun _ => some ("r0")
    writeOk := fun _ _ => true }

/-- The record assembled for baseStatus under w0. -/
def p0 : BskyPost := ⟨strL ("Hi"), [], ["en"], "t0", none, none⟩

/-! ## C9 -/

/-- C9: for every input whose stripped text measures at most 300
grapheme clusters, reformatText returns exactly the text obtained by
normalizing line breaks to a newline and paragraph boundaries to a
double newline and then stripping all remaining tags. -/
theorem c9_short_unchanged (s : MastodonStatus)
    (h : countGraphemes (toPlainText s.content) ≤ 300) :
    reformatText s = toPlainText s.content :=
  reformat_of_le s h

/-- Witness for C9: the theorem applied at a concrete short status. -/
theorem c9_short_unchanged_witness :
    reformatText baseStatus = toPlainText baseStatus.content :=
  c9_short_unchanged baseStatus (by decide)

/-! ## C10 -/

/-- C10: reformatText is idempotent on its own non-truncated output:
when the stripped input measures at most 300 graphemes, re-running
reformatText on the returned text returns it unchanged. -/
theorem c10_idempotent (s : MastodonStatus)
    (h : countGraphemes (toPlainText s.content) ≤ 300) :
    reformatText { s with content := reformatText s } = reformatText s := by
  have hr : reformatText s = toPlainText s.content := reformat_of_le s h
  have hfix : toPlainText (toPlainText s.content) = toPlainText s.content :=
    toPlainText_fixed s.content
  rw [hr]
  have h2 : countGraphemes
      (toPlainText ({ s with content := toPlainText s.content } : MastodonStatus).content) ≤ 300 := by
    show countGraphemes (toPlainText (toPlainText s.content)) ≤ 300
    rw [hfix]
    exact h
  rw [reformat_of_le _ h2]
  show toPlainText (toPlainText s.content) = toPlainText s.content
  exact hfix

/-- Witness for C10: the theorem applied at a concrete short status. -/
theorem c10_idempotent_witness :
    reformatText { baseStatus with content := reformatText baseStatus } =
      reformatText baseStatus :=
  c10_idempotent baseStatus (by decide)

/-! ## C1 -/

/-- C1 (amended): whenever the stripped text measures over 300
graphemes, the URL fits the budget, and the greedy truncation loop
triggers, the result measures at most 300 graphemes, ends with the
literal source URL, and its snippet part is a concatenation of whole
segments (no word-like token is split). -/
theorem c1_truncation (s : MastodonStatus) (r : List Char)
    (hlong : 300 < countGraphemes (toPlainText s.content))
    (hurl : utf16Len s.url + 2 ≤ 300)
    (hloop : truncLoop (300 - utf16Len s.url - 2) s.url [] []
      (segmentText (toPlainText s.content)) = some r) :
    reformatText s = r ∧
    countGraphemes r ≤ 300 ∧
    (∃ p, r = p ++ s.url) ∧
    (∃ n, r = segConcat ((segmentText (toPlainText s.content)).take n) ++
      '…' :: ' ' :: s.url) := by
  obtain ⟨n, hr, hlen⟩ := truncLoop_top _ _ _ _ hloop
  have heq : reformatText s = r := by
    unfold reformatText
    rw [if_pos hlong, hloop]
  have hurlle := length_le_utf16Len s.url
  refine ⟨heq, ?_, ⟨segConcat ((segmentText (toPlainText s.content)).take n) ++ ['…', ' '],
    by rw [hr]; simp⟩, ⟨n, hr⟩⟩
  unfold countGraphemes
  rw [hr, List.length_append]
  simp only [List.length_cons]
  rcases hlen with h0 | h0
  · rw [h0]
    simp only [List.length_nil]
    omega
  · unfold countGraphemes at h0
    omega

/-- A status whose stripped text is 380 graphemes of repeated words,
with a 17-code-unit source URL. -/
def c1s : MastodonStatus :=
  { baseStatus with
    id := "c1"
    content := repList 76 (strL ("word "))
    url := strL ("https://example/2") }

/-- The snippet the truncation loop accumulates on c1s: 56 whole
words. -/
def c1snip : List Char := strL ("word") ++ repList 55 (strL (" word"))

/-- The full truncated output for c1s. -/
def c1r : List Char := c1snip ++ '…' :: ' ' :: strL ("https://example/2")

set_option maxRecDepth 8192 in
/-- Witness for C1: the amended theorem applied at c1s. -/
theorem c1_truncation_witness :
    reformatText c1s = c1r ∧
    countGraphemes c1r ≤ 300 ∧
    (∃ p, c1r = p ++ c1s.url) ∧
    (∃ n, c1r = segConcat ((segmentText (toPlainText c1s.content)).take n) ++
      '…' :: ' ' :: c1s.url) :=
  c1_truncation c1s c1r (by decide) (by decide) (by decide)

/-- A status whose stripped text is 301 graphemes none of which is
word-like, so the truncation loop never triggers. -/
def cx1 : MastodonStatus :=
  { baseStatus with id := "cx1", content := repList 301 (strL ("!")) }

set_option maxRecDepth 8192 in
/-- Counterexample to C1 as stated: on cx1 the stripped text exceeds
300 graphemes, yet reformatText returns it unshortened, so the output
exceeds 300 graphemes and does not end with the source URL. -/
theorem c1_counterexample :
    300 < countGraphemes (toPlainText cx1.content) ∧
    reformatText cx1 = toPlainText cx1.content ∧
    300 < countGraphemes (reformatText cx1) := by
  refine ⟨by decide, by decide, by decide⟩

/-! ## C2 -/

/-- C2 (amended): for a reply whose parent ledger entry is the
failure value, any successfully assembled record carries no reply
reference; but for a reply whose parent has no ledger entry at all,
the assembler does not return a record without a reply — it errors
(the field access on the undefined lookup result throws). -/
theorem c2_parent_resolution (w : World) (led : Ledger) (s : MastodonStatus) (pid : String)
    (hid : s.inReplyToId = some pid) :
    (getItem led pid = some ⟨none⟩ →
      ∀ p, mastodonStatusToBskyPost w led s = .ok p → p.reply = none) ∧
    (pid ≠ "" → getItem led pid = none →
      mastodonStatusToBskyPost w led s = .error .typeError) := by
  constructor
  · intro hln p hok
    have hr := asm_reply w led s p hok
    unfold replyFor at hr
    rw [hid] at hr
    dsimp only at hr
    by_cases hpe : pid = ""
    · rw [if_pos hpe] at hr
      injection hr with h'
      exact h'.symm
    · rw [if_neg hpe, hln] at hr
      dsimp only at hr
      injection hr with h'
      exact h'.symm
  · intro hpe hnone
    unfold mastodonStatusToBskyPost
    have hr : replyFor led s = .error .typeError := by
      unfold replyFor
      rw [hid]
      dsimp only
      rw [if_neg hpe, hnone]
    rw [hr]

/-- A ledger holding a failure entry for parent p0x. -/
def c2led : Ledger := [("p0x", (⟨none⟩ : Entry))]

/-- A reply to the (possibly unrecorded) parent p0x. -/
def c2s : MastodonStatus :=
  { baseStatus with
    id := "3"
    content := strL ("Re")
    createdAt := "t2"
    inReplyToId := some ("p0x") }

/-- The record assembled for c2s when the parent entry is the failure
value. -/
def c2p : BskyPost := ⟨strL ("Re"), [], ["en"], "t2", none, none⟩

/-- Counterexample to C2 as stated: with no ledger entry for the
parent, the assembler errors instead of returning a record without a
reply reference. -/
theorem c2_counterexample :
    mastodonStatusToBskyPost w0 [] c2s = .error .typeError := rfl

/-- Witness for C2: the amended theorem applied at c2s, under a
failure-entry ledger and under an empty ledger. -/
theorem c2_parent_resolution_witness :
    c2p.reply = none ∧ mastodonStatusToBskyPost w0 [] c2s = .error .typeError :=
  ⟨(c2_parent_resolution w0 c2led c2s ("p0x") rfl).1 rfl c2p rfl,
   (c2_parent_resolution w0 [] c2s ("p0x") rfl).2 (by decide) rfl⟩

/-! ## C3 -/

/-- C3 (amended): rejection of events with non-image attachments is
not performed by includeEvent but by the stream stage after it: the
composed stream admission is false for every event carrying a
non-image attachment. -/
theorem c3_stream_rejects (accountId : String) (e : MastodonEvent)
    (h : e.payload.mediaAttachments.any (fun a => a.type != "image") = true) :
    streamAdmits accountId e = false := by
  unfold streamAdmits
  rw [h]
  simp

/-- An otherwise admissible update event carrying a video attachment. -/
def c3ev : MastodonEvent :=
  ⟨"update", { baseStatus with
    id := "5"
    mediaAttachments := [⟨"video", "u1", "d1", ⟨⟨1, 1⟩⟩⟩] }⟩

/-- Counterexample to C3 as stated: the event carries a non-image
attachment, yet the pure filter includeEvent admits it (returns
true, not false). -/
theorem c3_counterexample :
    c3ev.payload.mediaAttachments.any (fun a => a.type != "image") = true ∧
    includeEvent ("42") c3ev = true := by decide

/-- Witness for C3: the amended theorem applied at c3ev. -/
theorem c3_stream_rejects_witness : streamAdmits ("42") c3ev = false :=
  c3_stream_rejects ("42") c3ev (by decide)

/-! ## C4 -/

/-- C4: a reply assembled after its root was cross-posted and
recorded carries the root's destination identity as both parent and
root of its reply reference. -/
theorem c4_thread_continuity (w : World) (led : Ledger) (s0 s1 : MastodonStatus)
    (p0a p1a : BskyPost) (r0 : Ref)
    (hroot : s0.inReplyToId = none)
    (hap : assembleAndPost w led s0 = .ok (p0a, r0))
    (hw : w.writeOk s0.id ⟨some ⟨r0, none⟩⟩ = true)
    (hrep : s1.inReplyToId = some s0.id)
    (hne : s0.id ≠ "")
    (hasm : mastodonStatusToBskyPost w (step w led s0).ledger s1 = .ok p1a) :
    p1a.reply = some ⟨r0, r0⟩ := by
  have hasm0 := (assembleAndPost_ok w led s0 p0a r0 hap).1
  have hr0 : p0a.reply = none := reply_of_nonreply w led s0 p0a hroot hasm0
  have hstep := step_of_ok_write w led s0 p0a r0 hap (by rw [hr0]; exact hw)
  rw [hr0] at hstep
  have hled : (step w led s0).ledger = setItem led s0.id ⟨some ⟨r0, none⟩⟩ := by
    rw [hstep]
    rfl
  have hget := asm_reply w _ s1 p1a hasm
  unfold replyFor at hget
  rw [hrep] at hget
  dsimp only at hget
  rw [if_neg hne, hled, getItem_setItem_self] at hget
  dsimp only at hget
  injection hget with h'
  rw [← h']
  rfl

/-- The reply to baseStatus used in the thread-continuity witness. -/
def s1rep : MastodonStatus :=
  { baseStatus with
    id := "2"
    content := strL ("Yo")
    createdAt := "t1"
    inReplyToId := some ("1") }

/-- The record assembled for s1rep after baseStatus was cross-posted
under w0. -/
def p1rep : BskyPost := ⟨strL ("Yo"), [], ["en"], "t1", some ⟨"r0", "r0"⟩, none⟩

/-- Witness for C4: the theorem applied to baseStatus and its reply
s1rep under w0. -/
theorem c4_thread_continuity_witness : p1rep.reply = some ⟨"r0", "r0"⟩ :=
  c4_thread_continuity w0 [] baseStatus s1rep p0 p1rep ("r0")
    rfl rfl rfl rfl (by decide) rfl

/-! ## C5 -/

/-- C5 (amended): the ledger entry written for a successfully
cross-posted root post records the returned destination identity as
the post identity and null — not that identity — as the root
identity. -/
theorem c5_ledgerRootEntry (w : World) (led : Ledger) (s : MastodonStatus)
    (p : BskyPost) (r : Ref)
    (hroot : s.inReplyToId = none)
    (hap : assembleAndPost w led s = .ok (p, r))
    (hw : w.writeOk s.id ⟨some ⟨r, none⟩⟩ = true) :
    (step w led s).writes = [(s.id, ⟨some ⟨r, none⟩⟩)] ∧
    getItem (step w led s).ledger s.id = some ⟨some ⟨r, none⟩⟩ := by
  have hasm := (assembleAndPost_ok w led s p r hap).1
  have hrep : p.reply = none := reply_of_nonreply w led s p hroot hasm
  have hstep := step_of_ok_write w led s p r hap (by rw [hrep]; exact hw)
  rw [hrep] at hstep
  rw [hstep]
  exact ⟨rfl, getItem_setItem_self led s.id _⟩

/-- Counterexample to C5 as stated: the entry written for baseStatus
under w0 stores null as the root identity, not the returned post
identity. -/
theorem c5_counterexample :
    (step w0 [] baseStatus).writes = [("1", ⟨some ⟨"r0", none⟩⟩)] ∧
    (⟨some ⟨"r0", none⟩⟩ : Entry) ≠ ⟨some ⟨"r0", some ("r0")⟩⟩ := by decide

/-- Witness for C5: the amended theorem applied to baseStatus under
w0. -/
theorem c5_ledgerRootEntry_witness :
    (step w0 [] baseStatus).writes = [("1", ⟨some ⟨"r0", none⟩⟩)] ∧
    getItem (step w0 [] baseStatus).ledger ("1") = some ⟨some ⟨"r0", none⟩⟩ :=
  c5_ledgerRootEntry w0 [] baseStatus p0 ("r0") rfl rfl rfl

/-! ## C6 -/

/-- C6: media batch atomicity — the embed builder succeeds only when
every attachment transloads (and then returns exactly one image per
attachment), and the failure of any single item fails the whole
operation with an error wrapped around an offending URL. -/
theorem c6_media_atomicity (media : String → FetchOutcome) (s : MastodonStatus) :
    (∀ em, mastodonMediaToBskyEmbeds media s = .ok em →
      (∀ a ∈ s.mediaAttachments, ∃ b, media a.url = .ok b) ∧
      ∃ imgs, em = .images imgs ∧ imgs.length = s.mediaAttachments.length) ∧
    ((∃ a ∈ s.mediaAttachments, ∀ b, media a.url ≠ .ok b) →
      ∃ e, mastodonMediaToBskyEmbeds media s = .error e ∧
        e.url ∈ s.mediaAttachments.map MediaAttachment.url ∧
        ∀ b, media e.url ≠ .ok b) := by
  constructor
  · intro em hok
    unfold mastodonMediaToBskyEmbeds at hok
    cases ht : transloadMastodonMediaToBsky media (s.mediaAttachments.map MediaAttachment.url) with
    | error e => rw [ht] at hok; exact absurd hok (by simp)
    | ok blobs =>
      rw [ht] at hok
      dsimp only at hok
      obtain ⟨hlen, hall⟩ := transloadAll_ok media _ blobs ht
      constructor
      · intro a ha
        exact hall a.url (List.mem_map.mpr ⟨a, ha, rfl⟩)
      · injection hok with h'
        refine ⟨_, h'.symm, ?_⟩
        rw [List.length_zipWith, hlen, List.length_map]
        exact Nat.min_self _
  · rintro ⟨a, ha, hfail⟩
    cases ht : transloadMastodonMediaToBsky media (s.mediaAttachments.map MediaAttachment.url) with
    | ok blobs =>
      obtain ⟨_, hall⟩ := transloadAll_ok media _ blobs ht
      obtain ⟨b, hb⟩ := hall a.url (List.mem_map.mpr ⟨a, ha, rfl⟩)
      exact absurd hb (hfail b)
    | error e =>
      obtain ⟨hm, hf⟩ := transloadAll_err media _ e ht
      refine ⟨e, ?_, hm, hf⟩
      unfold mastodonMediaToBskyEmbeds
      rw [ht]

/-- An image attachment whose transload will fail in the C6 witness. -/
def c6att : MediaAttachment := ⟨"image", "u1", "alt1", ⟨⟨10, 20⟩⟩⟩

/-- A status carrying the single attachment c6att. -/
def c6s : MastodonStatus :=
  { baseStatus with
    id := "6"
    mediaAttachments := [c6att] }

/-- A network on which every download fails. -/
def c6media : String → FetchOutcome := fun _ => .downloadFail

/-- Witness for C6: the theorem applied at c6s with the failing
network. -/
theorem c6_media_atomicity_witness :
    ∃ e, mastodonMediaToBskyEmbeds c6media c6s = .error e ∧
      e.url ∈ c6s.mediaAttachments.map MediaAttachment.url ∧
      ∀ b, c6media e.url ≠ .ok b :=
  (c6_media_atomicity c6media c6s).2
    ⟨c6att, by decide, fun b hb => FetchOutcome.noConfusion hb⟩

/-! ## C7 -/

/-- C7 (amended): a failure in assembly or submission leads to a
failure entry and a non-crashed step provided the failure-entry write
itself succeeds; a ledger-write failure after a successful cross-post
leaves the published post in place and does not crash; and a
non-crashed state always continues the loop with the next item. -/
theorem c7_failure_isolation (w : World) (led : Ledger) (s : MastodonStatus) :
    (∀ e, assembleAndPost w led s = .error e → w.writeOk s.id ⟨none⟩ = true →
      step w led s = ⟨setItem led s.id ⟨none⟩, [(s.id, ⟨none⟩)], none, false⟩) ∧
    (∀ p r, assembleAndPost w led s = .ok (p, r) →
      w.writeOk s.id ⟨some ⟨r, p.reply.map ReplyRef.root⟩⟩ = false →
      step w led s = ⟨led, [], some r, false⟩) ∧
    (∀ st rest, st.crashed = false → st.ledger = led →
      runLoop w st (s :: rest) = runLoop w (applyStep st (step w led s)) rest) := by
  refine ⟨?_, ?_, ?_⟩
  · intro e hap hw
    unfold step
    rw [hap]
    dsimp only
    rw [hw]
    simp
  · intro p r hap hw
    unfold step
    rw [hap]
    dsimp only
    rw [hw]
    simp
  · intro st rest hc hl
    rw [runLoop_cons w st s rest hc, hl]

/-- A reply to an unrecorded parent: its assembly fails with the
undefined-lookup TypeError. -/
def c8sA : MastodonStatus :=
  { baseStatus with id := "1", inReplyToId := some ("9") }

/-- A second status with the same source id as c8sA. -/
def c8sB : MastodonStatus := { baseStatus with id := "1" }

/-- A world where the destination accepts posts but every ledger
write fails. -/
def c7wX : World :=
  { media := fun _ => .ok ("b")
    detectFacets := fun _ => []
    post := fun _ => some ("r0")
    writeOk := fun _ _ => false }

/-- Counterexample to C7 as stated: when the failure-entry write
itself fails, no failure entry is written and the loop halts — the
second status is never processed. -/
theorem c7_counterexample :
    (step c7wX [] c8sA).crashed = true ∧
    (step c7wX [] c8sA).writes = [] ∧
    runLoop c7wX ⟨[], [], [], false⟩ [c8sA, c8sB] = ⟨[], [], [], true⟩ := by
  refine ⟨rfl, rfl, rfl⟩

/-- Witness for C7: both amended step behaviours, each at a concrete
input — the isolated failure entry under w0, and the kept post under
the write-refusing world. -/
theorem c7_failure_isolation_witness :
    step w0 [] c8sA = ⟨setItem [] "1" ⟨none⟩, [("1", ⟨none⟩)], none, false⟩ ∧
    step c7wX [] baseStatus = ⟨[], [], some ("r0"), false⟩ :=
  ⟨(c7_failure_isolation w0 [] c8sA).1 (.asm .typeError) rfl rfl,
   (c7_failure_isolation c7wX [] baseStatus).2.1 p0 ("r0") rfl rfl⟩

/-! ## C8 -/

/-- C8 (amended): over a run whose admitted statuses have pairwise
distinct source ids, every ledger key is written at most once. -/
theorem c8_write_once (w : World) (led : Ledger) (ss : List MastodonStatus)
    (h : (ss.map MastodonStatus.id).Nodup) :
    ((runLoop w ⟨led, [], [], false⟩ ss).writes.map Prod.fst).Nodup :=
  runLoop_writes_nodup_aux w ss ⟨led, [], [], false⟩ (by simp) (by simp) h

/-- Counterexample to C8 as stated: a sequence in which the same
source id arrives twice makes the loop write that key twice — first
the failure entry, then a success entry that replaces it. -/
theorem c8_counterexample :
    (runLoop w0 ⟨[], [], [], false⟩ [c8sA, c8sB]).writes =
      [("1", ⟨none⟩), ("1", ⟨some ⟨"r0", none⟩⟩)] ∧
    ¬ ((runLoop w0 ⟨[], [], [], false⟩ [c8sA, c8sB]).writes.map Prod.fst).Nodup := by
  refine ⟨rfl, by decide⟩

/-- Two root statuses with distinct ids. -/
def cW1 : MastodonStatus := { baseStatus with id := "w1" }

/-- Another root status, id distinct from cW1. -/
def cW2 : MastodonStatus := { baseStatus with id := "w2" }

/-- Witness for C8: the amended theorem applied to a two-element run
with distinct ids under w0. -/
theorem c8_write_once_witness :
    ((runLoop w0 ⟨[], [], [], false⟩ [cW1, cW2]).writes.map Prod.fst).Nodup :=
  c8_write_once w0 [] [cW1, cW2] (by decide)
